import Mathlib

/-!
Shallow embedding of `src/modelfile-parser.cpp`, the Modelfile parser.

The C++ parser reads physical lines from a `FILE*` with `fgets`; here the
line source is a `List String` of the raw lines `fgets` would return (each
element includes its trailing newline when the file has one), and the
fallible `fopen` is an `Option` on the source.  Every function below mirrors
the C++ function of the same name.
-/

namespace Modelfile

/-- The parsed document, mirroring `struct ModelFile` (all fields
default-initialized to empty, as C++ value-initializes `std::string` and
`std::vector`). -/
structure ModelFile where
  «from» : String
  parameters : List (String × String)
  template_str : String
  system : String
  adapter : String
  license : String
  messages : List (String × String)
  deriving Repr, DecidableEq

/-- A default-constructed `ModelFile`: `ModelFile model;` in C++. -/
def ModelFile.empty : ModelFile := ⟨"", [], "", "", "", "", []⟩

/-- `str.substr(0, prefix.size()) == prefix`, the body of `starts_with`. -/
def starts_with (str pre : String) : Bool :=
  decide (str.data.take pre.data.length = pre.data)

/-- Byte-wise list comparison used to realize `std::string::find` on a
pattern: does `pat` occur at the head of `l`? -/
def isPrefixAt : List Char → List Char → Bool
  | [], _ => true
  | _ :: _, [] => false
  | a :: as, b :: bs => a == b && isPrefixAt as bs

/-- Does `pat` occur as a contiguous substring of `l`?  Models
`s.find(pat) != std::string::npos`. -/
def hasInfixList (pat : List Char) : List Char → Bool
  | [] => pat.isEmpty
  | c :: rest => isPrefixAt pat (c :: rest) || hasInfixList pat rest

/-- `line.find("\"\"\"") != std::string::npos`: the triple-quote marker
occurs somewhere in the string. -/
def containsMarker (s : String) : Bool :=
  hasInfixList "\"\"\"".data s.data

/-- `s.find(c, start)`: index of the first occurrence of `c`, counting from
the head of the list. -/
def findCharList (c : Char) : List Char → Option Nat
  | [] => none
  | x :: xs => if x = c then some 0 else (findCharList c xs).map (· + 1)

/-- `line.find(c, start)`: index of the first occurrence of `c` at or after
position `start`, or `none` for `npos`. -/
def findCharFrom (s : String) (c : Char) (start : Nat) : Option Nat :=
  (findCharList c (s.data.drop start)).map (· + start)

/-- `s.substr(pos)`: everything from position `pos` on. -/
def substrFrom (s : String) (pos : Nat) : String :=
  ⟨s.data.drop pos⟩

/-- `s.substr(pos, len)`: `len` characters starting at position `pos`. -/
def substrLen (s : String) (pos len : Nat) : String :=
  ⟨(s.data.drop pos).take len⟩

/-- The character set of `line.find_last_not_of(" \n\r\t")`. -/
def isWsChar (c : Char) : Bool :=
  c = ' ' || c = '\n' || c = '\r' || c = '\t'

/-- `line.erase(line.find_last_not_of(" \n\r\t") + 1)`: remove the maximal
trailing run of spaces, newlines, carriage returns and tabs. -/
def rstrip (s : String) : String :=
  ⟨(s.data.reverse.dropWhile isWsChar).reverse⟩

/-- Does the string end in one of the characters `rstrip` removes?  Used
to state trimming invariants. -/
def endsInWs (s : String) : Bool :=
  match s.data.getLast? with
  | some c => isWsChar c
  | none => false

/-- The `if (!result.empty() && result.back() == '\n') result.pop_back();`
step of `read_multiline`. -/
def stripTrailingNewline (s : String) : String :=
  if s.data.getLast? = some '\n' then ⟨s.data.dropLast⟩ else s

/-- The `while (std::fgets(...))` loop of `read_multiline`: accumulate raw
lines (newlines included) until a pulled line contains the triple-quote
marker (that line included), returning the buffer and the unread rest of
the source. -/
def read_multiline_loop : List String → String × List String
  | [] => ("", [])
  | l :: rest =>
    if containsMarker l then (l, rest)
    else
      let r := read_multiline_loop rest
      (l ++ r.1, r.2)

/-- `read_multiline`: the accumulation loop followed by stripping one
trailing newline if present. -/
def read_multiline (file : List String) : String × List String :=
  let r := read_multiline_loop file
  (stripTrailingNewline r.1, r.2)

/-- `parse_line`: classify one already-trimmed line and merge it into the
model; SYSTEM/LICENSE may pull further raw lines from `file`, so the
function also returns the unread rest of the source. -/
def parse_line (line : String) (model : ModelFile) (file : List String) :
    ModelFile × List String :=
  if starts_with line "FROM " then
    ({ model with «from» := substrFrom line 5 }, file)
  else if starts_with line "PARAMETER " then
    match findCharFrom line ' ' 10 with
    | some space_pos =>
      ({ model with parameters := model.parameters ++
          [(substrLen line 10 (space_pos - 10), substrFrom line (space_pos + 1))] }, file)
    | none => (model, file)
  else if starts_with line "TEMPLATE " then
    ({ model with template_str := substrFrom line 9 }, file)
  else if starts_with line "SYSTEM " then
    let sys := substrFrom line 7
    if containsMarker sys then
      let r := read_multiline file
      ({ model with system := sys ++ "\n" ++ r.1 }, r.2)
    else
      ({ model with system := sys }, file)
  else if starts_with line "ADAPTER " then
    ({ model with adapter := substrFrom line 8 }, file)
  else if starts_with line "LICENSE " then
    let lic := substrFrom line 8
    if containsMarker lic then
      let r := read_multiline file
      ({ model with license := lic ++ "\n" ++ r.1 }, r.2)
    else
      ({ model with license := lic }, file)
  else if starts_with line "MESSAGE " then
    match findCharFrom line ' ' 8 with
    | some space_pos =>
      ({ model with messages := model.messages ++
          [(substrLen line 8 (space_pos - 8), substrFrom line (space_pos + 1))] }, file)
    | none => (model, file)
  else
    (model, file)

/-- The `while (std::fgets(...))` loop of `parse_modelfile`, with an
explicit iteration bound: each step right-trims the raw line, skips blank
and `#` lines, and otherwise classifies it with `parse_line`, continuing on
whatever part of the source `parse_line` did not consume.  The bound only
needs to dominate the number of remaining lines, which never grows. -/
def parse_loop : Nat → List String → ModelFile → ModelFile
  | _, [], model => model
  | 0, _ :: _, model => model
  | fuel + 1, raw :: rest, model =>
    let line := rstrip raw
    if line.data = [] ∨ line.data.head? = some '#' then
      parse_loop fuel rest model
    else
      let p := parse_line line model rest
      parse_loop fuel p.2 p.1

/-- Run the read loop of `parse_modelfile` over a whole line source,
starting, as in the C++ loop, from the given model. -/
def parse_lines (file : List String) (model : ModelFile) : ModelFile :=
  parse_loop file.length file model

/-- `parse_modelfile`: `none` models `fopen` failing (`if (!file) return
model;`); `some lines` models a readable file whose `fgets` calls yield
`lines`. -/
def parse_modelfile (source : Option (List String)) : ModelFile :=
  match source with
  | none => ModelFile.empty
  | some lines => parse_lines lines ModelFile.empty

/-! ### Basic lemmas about the embedding -/

theorem string_data_mk (l : List Char) : (String.mk l).data = l := rfl

theorem string_empty_append (s : String) : "" ++ s = s := by
  apply String.ext
  rw [String.data_append]
  rfl

theorem string_join_cons (a : String) (l : List String) :
    String.join (a :: l) = a ++ String.join l := by
  have key : ∀ (l : List String) (s : String),
      l.foldl (· ++ ·) s = s ++ l.foldl (· ++ ·) "" := by
    intro l
    induction l with
    | nil => intro s; simp [List.foldl, String.append_empty]
    | cons b l ih =>
      intro s
      simp only [List.foldl]
      rw [ih (s ++ b), ih ("" ++ b), string_empty_append, String.append_assoc]
  show (a :: l).foldl (· ++ ·) "" = a ++ l.foldl (· ++ ·) ""
  simp only [List.foldl]
  rw [key l ("" ++ a), string_empty_append]

/-- The read loop never hands back more unread lines than it was given. -/
theorem read_multiline_loop_rest_le (file : List String) :
    (read_multiline_loop file).2.length ≤ file.length := by
  induction file with
  | nil => simp [read_multiline_loop]
  | cons l rest ih =>
    simp only [read_multiline_loop]
    split
    · simp
    · simpa using Nat.le_succ_of_le ih

/-- Every line left unread by the read loop was among the input lines. -/
theorem read_multiline_loop_rest_mem (file : List String) (x : String)
    (hx : x ∈ (read_multiline_loop file).2) : x ∈ file := by
  induction file with
  | nil => simp [read_multiline_loop] at hx
  | cons l rest ih =>
    simp only [read_multiline_loop] at hx
    split at hx
    · exact List.mem_cons_of_mem _ hx
    · exact List.mem_cons_of_mem _ (ih hx)

theorem read_multiline_rest_le (file : List String) :
    (read_multiline file).2.length ≤ file.length :=
  read_multiline_loop_rest_le file

theorem read_multiline_rest_mem (file : List String) (x : String)
    (hx : x ∈ (read_multiline file).2) : x ∈ file :=
  read_multiline_loop_rest_mem file x hx

/-- `parse_line` never hands back more unread lines than it was given. -/
theorem parse_line_rest_le (line : String) (model : ModelFile)
    (file : List String) :
    (parse_line line model file).2.length ≤ file.length := by
  unfold parse_line
  repeat' (first | split | dsimp only)
  all_goals first
    | exact Nat.le_refl _
    | exact read_multiline_rest_le file

/-- Every line left unread by `parse_line` was among the input lines. -/
theorem parse_line_rest_mem (line : String) (model : ModelFile)
    (file : List String) (x : String)
    (hx : x ∈ (parse_line line model file).2) : x ∈ file := by
  unfold parse_line at hx
  repeat' (first | split at hx | dsimp only at hx)
  all_goals first
    | exact hx
    | exact read_multiline_rest_mem file x hx

/-- The iteration bound of `parse_loop` is irrelevant as long as it
dominates the number of remaining lines. -/
theorem parse_loop_congr (fuel : Nat) :
    ∀ (fuel' : Nat) (file : List String) (model : ModelFile),
      file.length ≤ fuel → file.length ≤ fuel' →
      parse_loop fuel file model = parse_loop fuel' file model := by
  induction fuel with
  | zero =>
    intro fuel' file model h _
    have : file = [] := List.eq_nil_of_length_eq_zero (Nat.le_zero.mp h)
    subst this
    simp [parse_loop]
  | succ fuel ih =>
    intro fuel' file model h h'
    match file with
    | [] => simp [parse_loop]
    | raw :: rest =>
      match fuel' with
      | 0 => exact absurd h' (by simp)
      | fuel'' + 1 =>
        simp only [parse_loop]
        split
        · exact ih fuel'' rest model (Nat.lt_succ_iff.mp h) (Nat.lt_succ_iff.mp h')
        · exact ih fuel'' _ _
            (Nat.le_trans (parse_line_rest_le _ _ _) (Nat.lt_succ_iff.mp h))
            (Nat.le_trans (parse_line_rest_le _ _ _) (Nat.lt_succ_iff.mp h'))

/-- Any iteration bound at least the number of remaining lines gives the
same result as `parse_lines`. -/
theorem parse_loop_eq_parse_lines (fuel : Nat) (file : List String)
    (model : ModelFile) (h : file.length ≤ fuel) :
    parse_loop fuel file model = parse_lines file model :=
  parse_loop_congr fuel file.length file model h (Nat.le_refl _)

/-- A string starts with itself as a literal, whatever follows. -/
theorem starts_with_append (p v : String) : starts_with (p ++ v) p = true := by
  simp [starts_with, String.data_append, List.take_left]

/-- Two strings whose first characters differ: the prefix test fails. -/
theorem starts_with_head_ne (s p : String) (c d : Char)
    (hs : s.data.head? = some c) (hp : p.data.head? = some d) (h : c ≠ d) :
    starts_with s p = false := by
  rcases s with ⟨sd⟩
  rcases p with ⟨pd⟩
  match sd, pd, hs, hp with
  | c' :: st, d' :: pt, hs, hp =>
    simp only [string_data_mk, List.head?_cons, Option.some.injEq] at hs hp
    subst hs; subst hp
    simp only [starts_with, string_data_mk, List.length_cons,
      List.take_succ_cons, decide_eq_false_iff_not, ne_eq, List.cons.injEq,
      not_and]
    intro hcd
    exact absurd hcd h

/-- Dropping exactly the literal prefix recovers the suffix. -/
theorem substrFrom_append (p v : String) (n : Nat) (hn : p.data.length = n) :
    substrFrom (p ++ v) n = v := by
  subst hn
  apply String.ext
  simp [substrFrom, String.data_append, List.drop_left]

/-- `find` misses a character that does not occur. -/
theorem findCharList_not_mem (c : Char) (l : List Char) (h : c ∉ l) :
    findCharList c l = none := by
  induction l with
  | nil => rfl
  | cons a l ih =>
    simp only [List.mem_cons, not_or] at h
    simp only [findCharList]
    rw [if_neg (fun hac : a = c => h.1 hac.symm), ih h.2]
    rfl

/-- `find` locates the first occurrence of `c` right after a `c`-free
block. -/
theorem findCharList_split (c : Char) (l1 l2 : List Char) (h : c ∉ l1) :
    findCharList c (l1 ++ c :: l2) = some l1.length := by
  induction l1 with
  | nil => simp [findCharList]
  | cons a l1 ih =>
    simp only [List.mem_cons, not_or] at h
    have step : findCharList c ((a :: l1) ++ c :: l2) =
        if a = c then some 0
        else (findCharList c (l1 ++ c :: l2)).map (· + 1) := rfl
    rw [step, if_neg (fun hac : a = c => h.1 hac.symm), ih h.2]
    rfl

/-- `parse_line` on a FROM line: everything after `FROM ` is assigned. -/
theorem parse_line_from (v : String) (m : ModelFile) (f : List String) :
    parse_line ("FROM " ++ v) m f = ({ m with «from» := v }, f) := by
  unfold parse_line
  rw [starts_with_append, substrFrom_append "FROM " v 5 rfl]
  simp

/-- `parse_line` on a TEMPLATE line. -/
theorem parse_line_template (v : String) (m : ModelFile) (f : List String) :
    parse_line ("TEMPLATE " ++ v) m f = ({ m with template_str := v }, f) := by
  have hh : ("TEMPLATE " ++ v).data.head? = some 'T' := by
    rw [String.data_append]; rfl
  unfold parse_line
  rw [starts_with_head_ne _ "FROM " 'T' 'F' hh rfl (by decide),
    starts_with_head_ne _ "PARAMETER " 'T' 'P' hh rfl (by decide),
    starts_with_append, substrFrom_append "TEMPLATE " v 9 rfl]
  simp

/-- `parse_line` on an ADAPTER line. -/
theorem parse_line_adapter (v : String) (m : ModelFile) (f : List String) :
    parse_line ("ADAPTER " ++ v) m f = ({ m with adapter := v }, f) := by
  have hh : ("ADAPTER " ++ v).data.head? = some 'A' := by
    rw [String.data_append]; rfl
  unfold parse_line
  rw [starts_with_head_ne _ "FROM " 'A' 'F' hh rfl (by decide),
    starts_with_head_ne _ "PARAMETER " 'A' 'P' hh rfl (by decide),
    starts_with_head_ne _ "TEMPLATE " 'A' 'T' hh rfl (by decide),
    starts_with_head_ne _ "SYSTEM " 'A' 'S' hh rfl (by decide),
    starts_with_append, substrFrom_append "ADAPTER " v 8 rfl]
  simp

/-- `parse_line` on a SYSTEM line: the value is everything after
`SYSTEM `; a triple-quote marker in it triggers the continuation reader. -/
theorem parse_line_system (v : String) (m : ModelFile) (f : List String) :
    parse_line ("SYSTEM " ++ v) m f =
      (if containsMarker v then
        ({ m with system := v ++ "\n" ++ (read_multiline f).1 },
          (read_multiline f).2)
      else
        ({ m with system := v }, f)) := by
  have hh : ("SYSTEM " ++ v).data.head? = some 'S' := by
    rw [String.data_append]; rfl
  unfold parse_line
  rw [starts_with_head_ne _ "FROM " 'S' 'F' hh rfl (by decide),
    starts_with_head_ne _ "PARAMETER " 'S' 'P' hh rfl (by decide),
    starts_with_head_ne _ "TEMPLATE " 'S' 'T' hh rfl (by decide),
    starts_with_append, substrFrom_append "SYSTEM " v 7 rfl]
  simp

/-- `parse_line` on a LICENSE line: as SYSTEM, into `license`. -/
theorem parse_line_license (v : String) (m : ModelFile) (f : List String) :
    parse_line ("LICENSE " ++ v) m f =
      (if containsMarker v then
        ({ m with license := v ++ "\n" ++ (read_multiline f).1 },
          (read_multiline f).2)
      else
        ({ m with license := v }, f)) := by
  have hh : ("LICENSE " ++ v).data.head? = some 'L' := by
    rw [String.data_append]; rfl
  unfold parse_line
  rw [starts_with_head_ne _ "FROM " 'L' 'F' hh rfl (by decide),
    starts_with_head_ne _ "PARAMETER " 'L' 'P' hh rfl (by decide),
    starts_with_head_ne _ "TEMPLATE " 'L' 'T' hh rfl (by decide),
    starts_with_head_ne _ "SYSTEM " 'L' 'S' hh rfl (by decide),
    starts_with_head_ne _ "ADAPTER " 'L' 'A' hh rfl (by decide),
    starts_with_append, substrFrom_append "LICENSE " v 8 rfl]
  simp

/-- `parse_line` on a PARAMETER line with a space-free key: the text
between `PARAMETER ` and the first following space is the key, the rest
the value. -/
theorem parse_line_parameter (k v : String) (m : ModelFile)
    (f : List String) (hk : ' ' ∉ k.data) :
    parse_line ("PARAMETER " ++ k ++ " " ++ v) m f =
      ({ m with parameters := m.parameters ++ [(k, v)] }, f) := by
  have hline : "PARAMETER " ++ k ++ " " ++ v =
      "PARAMETER " ++ (k ++ (" " ++ v)) := by
    rw [String.append_assoc, String.append_assoc]
  rw [hline]
  have hdata : ("PARAMETER " ++ (k ++ (" " ++ v))).data =
      "PARAMETER ".data ++ (k.data ++ (' ' :: v.data)) := by
    simp only [String.data_append]
    rfl
  have hh : ("PARAMETER " ++ (k ++ (" " ++ v))).data.head? = some 'P' := by
    rw [hdata]; rfl
  have hfind : findCharFrom ("PARAMETER " ++ (k ++ (" " ++ v))) ' ' 10 =
      some (k.data.length + 10) := by
    unfold findCharFrom
    rw [hdata, List.drop_left' (by rfl), findCharList_split ' ' _ _ hk]
    rfl
  have hkey : substrLen ("PARAMETER " ++ (k ++ (" " ++ v))) 10
      ((k.data.length + 10) - 10) = k := by
    apply String.ext
    simp only [substrLen, string_data_mk]
    rw [hdata, @List.drop_left' _ ("PARAMETER ".data) _ _ (by rfl),
      Nat.add_sub_cancel, List.take_left]
  have hval : substrFrom ("PARAMETER " ++ (k ++ (" " ++ v)))
      ((k.data.length + 10) + 1) = v := by
    apply String.ext
    simp only [substrFrom, string_data_mk]
    have hsplit : "PARAMETER ".data ++ (k.data ++ (' ' :: v.data)) =
        ("PARAMETER ".data ++ k.data ++ [' ']) ++ v.data := by
      simp
    rw [hdata, hsplit, List.drop_left']
    have h10 : ("PARAMETER ".data).length = 10 := rfl
    simp only [List.length_append, List.length_cons, List.length_nil, h10]
    omega
  unfold parse_line
  rw [starts_with_head_ne _ "FROM " 'P' 'F' hh rfl (by decide),
    starts_with_append, hfind]
  simp only [hkey, hval]
  simp

/-- A PARAMETER line with no space after offset 10 is silently dropped. -/
theorem parse_line_parameter_nospace (k : String) (m : ModelFile)
    (f : List String) (hk : ' ' ∉ k.data) :
    parse_line ("PARAMETER " ++ k) m f = (m, f) := by
  have hh : ("PARAMETER " ++ k).data.head? = some 'P' := by
    rw [String.data_append]; rfl
  have hfind : findCharFrom ("PARAMETER " ++ k) ' ' 10 = none := by
    unfold findCharFrom
    rw [String.data_append, List.drop_left' (by rfl),
      findCharList_not_mem ' ' _ hk]
    rfl
  unfold parse_line
  rw [starts_with_head_ne _ "FROM " 'P' 'F' hh rfl (by decide),
    starts_with_append, hfind]
  simp

/-- One step of the read loop of `parse_modelfile`: right-trim the first
raw line, skip it when blank or a comment, otherwise classify it and
continue behind whatever `parse_line` consumed. -/
theorem parse_lines_cons (raw : String) (rest : List String)
    (model : ModelFile) :
    parse_lines (raw :: rest) model =
      (if (rstrip raw).data = [] ∨ (rstrip raw).data.head? = some '#' then
        parse_lines rest model
      else
        parse_lines (parse_line (rstrip raw) model rest).2
          (parse_line (rstrip raw) model rest).1) := by
  show parse_loop (rest.length + 1) (raw :: rest) model = _
  simp only [parse_loop]
  split
  · exact parse_loop_eq_parse_lines _ _ _ (Nat.le_refl _)
  · exact parse_loop_eq_parse_lines _ _ _ (parse_line_rest_le _ _ _)

/-- When no pulled line contains the marker, the read loop accumulates the
whole remaining source (in order) and exhausts it. -/
theorem read_multiline_loop_no_marker (file : List String)
    (h : ∀ l ∈ file, containsMarker l = false) :
    read_multiline_loop file = (String.join file, []) := by
  induction file with
  | nil => rfl
  | cons l rest ih =>
    simp only [read_multiline_loop, h l (List.mem_cons_self l rest),
      Bool.false_eq_true, if_false]
    rw [ih (fun x hx => h x (List.mem_cons_of_mem l hx)), string_join_cons]

/-- The read loop accumulates exactly the marker-free block plus the first
marker line, leaving the lines after the marker line unread. -/
theorem read_multiline_loop_split (pre : List String) (stop : String)
    (rest : List String) (hpre : ∀ l ∈ pre, containsMarker l = false)
    (hstop : containsMarker stop = true) :
    read_multiline_loop (pre ++ stop :: rest) =
      (String.join pre ++ stop, rest) := by
  induction pre with
  | nil =>
    simp only [List.nil_append, read_multiline_loop, hstop, if_true]
    rw [show String.join [] = "" from rfl, string_empty_append]
  | cons l pre ih =>
    simp only [List.cons_append, read_multiline_loop,
      hpre l (List.mem_cons_self l pre), Bool.false_eq_true, if_false,
      List.append_eq]
    rw [ih (fun x hx => hpre x (List.mem_cons_of_mem l hx)),
      string_join_cons, String.append_assoc]

/-- Each branch of `parse_line` only writes the field its keyword names:
when a keyword's prefix test fails, that keyword's field is unchanged. -/
theorem parse_line_preserves (line : String) (m : ModelFile)
    (f : List String) :
    (starts_with line "FROM " = false →
      ((parse_line line m f).1).«from» = m.«from») ∧
    (starts_with line "PARAMETER " = false →
      ((parse_line line m f).1).parameters = m.parameters) ∧
    (starts_with line "TEMPLATE " = false →
      ((parse_line line m f).1).template_str = m.template_str) ∧
    (starts_with line "SYSTEM " = false →
      ((parse_line line m f).1).system = m.system) ∧
    (starts_with line "ADAPTER " = false →
      ((parse_line line m f).1).adapter = m.adapter) ∧
    (starts_with line "LICENSE " = false →
      ((parse_line line m f).1).license = m.license) ∧
    (starts_with line "MESSAGE " = false →
      ((parse_line line m f).1).messages = m.messages) := by
  unfold parse_line
  repeat' (first | split | dsimp only)
  all_goals refine ⟨?_, ?_, ?_, ?_, ?_, ?_, ?_⟩ <;> intro hsw <;> simp_all

/-- Generic preservation through the whole read loop: a projection left
unchanged by `parse_line` whenever prefix `P` fails is left unchanged by
`parse_loop` whenever no trimmed line starts with `P`. -/
theorem parse_loop_preserves_gen {α : Type} (g : ModelFile → α) (P : String)
    (hg : ∀ line m f, starts_with line P = false →
      g (parse_line line m f).1 = g m)
    (fuel : Nat) :
    ∀ (file : List String) (m : ModelFile),
      (∀ l ∈ file, starts_with (rstrip l) P = false) →
      g (parse_loop fuel file m) = g m := by
  induction fuel with
  | zero =>
    intro file m _
    match file with
    | [] => rfl
    | raw :: rest => rfl
  | succ fuel ih =>
    intro file m h
    match file with
    | [] => rfl
    | raw :: rest =>
      simp only [parse_loop]
      split
      · exact ih rest m (fun x hx => h x (List.mem_cons_of_mem raw hx))
      · rw [ih _ _ (fun x hx => h x (List.mem_cons_of_mem raw
            (parse_line_rest_mem _ _ _ x hx)))]
        exact hg _ _ _ (h raw (List.mem_cons_self raw rest))

/-- A right-trimmed string never ends in a trimmed character. -/
theorem endsInWs_rstrip (r : String) : endsInWs (rstrip r) = false := by
  unfold endsInWs rstrip
  rw [string_data_mk, List.getLast?_reverse]
  have h := List.head?_dropWhile_not isWsChar r.data.reverse
  revert h
  cases (r.data.reverse.dropWhile isWsChar).head? with
  | none => intro _; rfl
  | some c => intro h; simpa using h

/-- The index returned by `find` is in range and holds the character. -/
theorem findCharList_some (c : Char) (l : List Char) (i : Nat)
    (h : findCharList c l = some i) : i < l.length ∧ l[i]? = some c := by
  induction l generalizing i with
  | nil => simp [findCharList] at h
  | cons a l ih =>
    simp only [findCharList] at h
    split at h
    · rename_i hac
      cases h
      simpa using congrArg some hac
    · match hfl : findCharList c l with
      | none => rw [hfl] at h; simp at h
      | some j =>
        rw [hfl] at h
        simp only [Option.map_some', Option.some.injEq] at h
        obtain ⟨hj, hget⟩ := ih j hfl
        subst h
        exact ⟨by simpa using hj, by simpa using hget⟩

/-- Dropping strictly fewer elements than the length keeps the last
element. -/
theorem getLast?_drop_of_lt {α : Type} (l : List α) (n : Nat)
    (h : n < l.length) : (l.drop n).getLast? = l.getLast? := by
  rw [List.getLast?_eq_getElem?, List.getLast?_eq_getElem?, List.length_drop,
    List.getElem?_drop]
  congr 1
  omega

/-- The value cut off after a space found in a right-trimmed line is
non-empty and itself right-trimmed. -/
theorem value_of_find (line : String) (off p : Nat)
    (hfind : findCharFrom line ' ' off = some p)
    (hline : endsInWs line = false) :
    substrFrom line (p + 1) ≠ "" ∧
      endsInWs (substrFrom line (p + 1)) = false := by
  unfold findCharFrom at hfind
  match hfl : findCharList ' ' (line.data.drop off) with
  | none => rw [hfl] at hfind; simp at hfind
  | some j =>
    rw [hfl] at hfind
    simp only [Option.map_some', Option.some.injEq] at hfind
    obtain ⟨hj, hget⟩ := findCharList_some ' ' _ j hfl
    rw [List.length_drop] at hj
    rw [List.getElem?_drop] at hget
    have hp : p = j + off := hfind.symm
    have hplt : p < line.data.length := by omega
    have hpget : line.data[p]? = some ' ' := by
      rw [hp, Nat.add_comm]; exact hget
    have hlast : p + 1 < line.data.length := by
      rcases Nat.lt_or_ge (p + 1) line.data.length with h1 | h1
      · exact h1
      · exfalso
        have hpe : p = line.data.length - 1 := by omega
        have : line.data.getLast? = some ' ' := by
          rw [List.getLast?_eq_getElem?, ← hpe]; exact hpget
        unfold endsInWs at hline
        rw [this] at hline
        simp [isWsChar] at hline
    constructor
    · intro hcon
      have hdata : (substrFrom line (p + 1)).data = [] := by rw [hcon]
      rw [substrFrom, string_data_mk] at hdata
      have hlen := congrArg List.length hdata
      rw [List.length_drop] at hlen
      simp only [List.length_nil] at hlen
      omega
    · unfold endsInWs substrFrom
      rw [string_data_mk, getLast?_drop_of_lt _ _ hlast]
      unfold endsInWs at hline
      exact hline

/-- `parse_line` either leaves both sequences unchanged or appends exactly
one pair, cut at the first space after the keyword, to exactly one of
them. -/
theorem parse_line_shape (line : String) (m : ModelFile) (f : List String) :
    ((parse_line line m f).1.parameters = m.parameters ∧
      (parse_line line m f).1.messages = m.messages) ∨
    (∃ sp, findCharFrom line ' ' 10 = some sp ∧
      (parse_line line m f).1.parameters =
        m.parameters ++ [(substrLen line 10 (sp - 10), substrFrom line (sp + 1))] ∧
      (parse_line line m f).1.messages = m.messages) ∨
    (∃ sp, findCharFrom line ' ' 8 = some sp ∧
      (parse_line line m f).1.messages =
        m.messages ++ [(substrLen line 8 (sp - 8), substrFrom line (sp + 1))] ∧
      (parse_line line m f).1.parameters = m.parameters) := by
  unfold parse_line
  repeat' (first | split | dsimp only)
  all_goals first
    | exact Or.inl ⟨rfl, rfl⟩
    | (refine Or.inr (Or.inl ⟨_, ?_, rfl, rfl⟩); assumption)
    | (refine Or.inr (Or.inr ⟨_, ?_, rfl, rfl⟩); assumption)

/-- Values appended by `parse_line` from a right-trimmed line are
non-empty and right-trimmed, and old pairs are kept as they are. -/
theorem parse_line_values (line : String) (m : ModelFile) (f : List String)
    (hline : endsInWs line = false)
    (hm : ∀ kv : String × String,
      kv ∈ m.parameters ∨ kv ∈ m.messages →
      kv.2 ≠ "" ∧ endsInWs kv.2 = false) :
    ∀ kv : String × String,
      kv ∈ (parse_line line m f).1.parameters ∨
        kv ∈ (parse_line line m f).1.messages →
      kv.2 ≠ "" ∧ endsInWs kv.2 = false := by
  intro kv hkv
  rcases parse_line_shape line m f with ⟨hp, hq⟩ | ⟨sp, hsp, hp, hq⟩ | ⟨sp, hsp, hp, hq⟩
  · rw [hp, hq] at hkv
    exact hm kv hkv
  · rw [hp, hq] at hkv
    rcases hkv with hkv | hkv
    · rcases List.mem_append.mp hkv with hold | hnew
      · exact hm kv (Or.inl hold)
      · have : kv = (substrLen line 10 (sp - 10), substrFrom line (sp + 1)) := by
          simpa using hnew
        rw [this]
        exact value_of_find line 10 sp hsp hline
    · exact hm kv (Or.inr hkv)
  · rw [hp, hq] at hkv
    rcases hkv with hkv | hkv
    · exact hm kv (Or.inl hkv)
    · rcases List.mem_append.mp hkv with hold | hnew
      · exact hm kv (Or.inr hold)
      · have : kv = (substrLen line 8 (sp - 8), substrFrom line (sp + 1)) := by
          simpa using hnew
        rw [this]
        exact value_of_find line 8 sp hsp hline

/-- The pair-value invariant propagates through the whole read loop. -/
theorem parse_loop_values (fuel : Nat) :
    ∀ (file : List String) (m : ModelFile),
      (∀ kv : String × String,
        kv ∈ m.parameters ∨ kv ∈ m.messages →
        kv.2 ≠ "" ∧ endsInWs kv.2 = false) →
      ∀ kv : String × String,
        kv ∈ (parse_loop fuel file m).parameters ∨
          kv ∈ (parse_loop fuel file m).messages →
        kv.2 ≠ "" ∧ endsInWs kv.2 = false := by
  induction fuel with
  | zero =>
    intro file m hm
    match file with
    | [] => exact hm
    | raw :: rest => exact hm
  | succ fuel ih =>
    intro file m hm
    match file with
    | [] => exact hm
    | raw :: rest =>
      simp only [parse_loop]
      split
      · exact ih rest m hm
      · exact ih _ _ (parse_line_values _ _ _ (endsInWs_rstrip raw) hm)

/-- The two sequence fields only ever grow: whatever model the loop starts
from, its pairs persist, in order, at the front. -/
theorem parse_loop_appends (fuel : Nat) :
    ∀ (file : List String) (m : ModelFile),
      ∃ tp tm,
        (parse_loop fuel file m).parameters = m.parameters ++ tp ∧
        (parse_loop fuel file m).messages = m.messages ++ tm := by
  induction fuel with
  | zero =>
    intro file m
    match file with
    | [] => exact ⟨[], [], by simp [parse_loop], by simp [parse_loop]⟩
    | raw :: rest => exact ⟨[], [], by simp [parse_loop], by simp [parse_loop]⟩
  | succ fuel ih =>
    intro file m
    match file with
    | [] => exact ⟨[], [], by simp [parse_loop], by simp [parse_loop]⟩
    | raw :: rest =>
      simp only [parse_loop]
      split
      · exact ih rest m
      · obtain ⟨tp, tm, htp, htm⟩ := ih (parse_line (rstrip raw) m rest).2
          (parse_line (rstrip raw) m rest).1
        rcases parse_line_shape (rstrip raw) m rest with
          ⟨hp, hq⟩ | ⟨sp, _, hp, hq⟩ | ⟨sp, _, hp, hq⟩
        · exact ⟨tp, tm, by rw [htp, hp], by rw [htm, hq]⟩
        · exact ⟨(substrLen (rstrip raw) 10 (sp - 10),
              substrFrom (rstrip raw) (sp + 1)) :: tp, tm,
            by rw [htp, hp]; simp, by rw [htm, hq]⟩
        · exact ⟨tp, (substrLen (rstrip raw) 8 (sp - 8),
              substrFrom (rstrip raw) (sp + 1)) :: tm,
            by rw [htp, hq], by rw [htm, hp]; simp⟩

/-! ### The claims -/

/-- C1: a SYSTEM directive whose value contains the triple-quote marker
enters continuation mode: subsequent raw lines are pulled untrimmed into a
buffer, reading stops at the first pulled line containing the marker (that
line included), one trailing newline is stripped from the buffer if
present, and the buffer is appended to the field's value separated by a
single newline. -/
theorem claim_C1_system_continuation (r v stop : String)
    (pre rest : List String) (m : ModelFile)
    (hr : rstrip r = "SYSTEM " ++ v)
    (hv : containsMarker v = true)
    (hpre : ∀ l ∈ pre, containsMarker l = false)
    (hstop : containsMarker stop = true) :
    parse_lines (r :: (pre ++ stop :: rest)) m =
      parse_lines rest
        { m with system := v ++ "\n" ++
            stripTrailingNewline (String.join pre ++ stop) } := by
  have hdata : ("SYSTEM " ++ v).data = 'S' :: ("YSTEM ".data ++ v.data) := by
    rw [String.data_append]; rfl
  rw [parse_lines_cons, hr, if_neg (by simp [hdata])]
  rw [parse_line_system, if_pos hv]
  have hrm : read_multiline (pre ++ stop :: rest) =
      (stripTrailingNewline (String.join pre ++ stop), rest) := by
    unfold read_multiline
    rw [read_multiline_loop_split pre stop rest hpre hstop]
  rw [hrm]

/-- C1 witness: `SYSTEM """Part one` followed by `continues here """`
yields `system` equal to `"""Part one\ncontinues here """`. -/
theorem claim_C1_system_continuation_witness :
    parse_lines ["SYSTEM \"\"\"Part one\n", "continues here \"\"\"\n"]
        ModelFile.empty =
      { ModelFile.empty with
          system := "\"\"\"Part one\ncontinues here \"\"\"" } := by
  have h := claim_C1_system_continuation "SYSTEM \"\"\"Part one\n"
    "\"\"\"Part one" "continues here \"\"\"\n" [] [] ModelFile.empty
    (by decide) (by decide) (by intro l hl; exact absurd hl (List.not_mem_nil l))
    (by decide)
  exact h.trans (by decide)

/-- C2: a PARAMETER line splits at the first space at or after offset 10;
the text before it is the key and the text after it the value, appended as
one pair; a PARAMETER line with no such space leaves the model unchanged
and raises no error. -/
theorem claim_C2_parameter_split (k v : String) (m : ModelFile)
    (f : List String) (hk : ' ' ∉ k.data) :
    parse_line ("PARAMETER " ++ k ++ " " ++ v) m f =
      ({ m with parameters := m.parameters ++ [(k, v)] }, f) ∧
    parse_line ("PARAMETER " ++ k) m f = (m, f) :=
  ⟨parse_line_parameter k v m f hk, parse_line_parameter_nospace k m f hk⟩

/-- C2 witness: `PARAMETER temperature 0.7` produces exactly the pair
("temperature", "0.7"), and `PARAMETER onlykey` is dropped silently. -/
theorem claim_C2_parameter_split_witness :
    parse_line ("PARAMETER " ++ "temperature" ++ " " ++ "0.7")
        ModelFile.empty [] =
      ({ ModelFile.empty with parameters := [("temperature", "0.7")] }, []) ∧
    parse_line ("PARAMETER " ++ "onlykey") ModelFile.empty [] =
      (ModelFile.empty, []) :=
  ⟨(claim_C2_parameter_split "temperature" "0.7" ModelFile.empty []
      (by decide)).1,
    (claim_C2_parameter_split "onlykey" "" ModelFile.empty []
      (by decide)).2⟩

/-- C3: for single-line FROM, TEMPLATE and ADAPTER directives the
corresponding field equals the exact substring of the line following the
keyword and its single separating space. -/
theorem claim_C3_single_line_directives (v : String) (m : ModelFile)
    (f : List String) :
    parse_line ("FROM " ++ v) m f = ({ m with «from» := v }, f) ∧
    parse_line ("TEMPLATE " ++ v) m f = ({ m with template_str := v }, f) ∧
    parse_line ("ADAPTER " ++ v) m f = ({ m with adapter := v }, f) :=
  ⟨parse_line_from v m f, parse_line_template v m f, parse_line_adapter v m f⟩

/-- C4: repeated PARAMETER lines with the same key all appear in
`parameters` in input order, with no deduplication or overwrite, and
likewise for repeated MESSAGE lines; in general the two sequences only
ever grow at the back. -/
theorem claim_C4_duplicates_retained :
    (parse_lines ["PARAMETER k 1\n", "PARAMETER k 2\n",
        "MESSAGE user a\n", "MESSAGE user a\n"] ModelFile.empty).parameters =
      [("k", "1"), ("k", "2")] ∧
    (parse_lines ["PARAMETER k 1\n", "PARAMETER k 2\n",
        "MESSAGE user a\n", "MESSAGE user a\n"] ModelFile.empty).messages =
      [("user", "a"), ("user", "a")] ∧
    ∀ (file : List String) (m : ModelFile), ∃ tp tm,
      (parse_lines file m).parameters = m.parameters ++ tp ∧
      (parse_lines file m).messages = m.messages ++ tm :=
  ⟨by decide, by decide,
    fun file m => parse_loop_appends file.length file m⟩

/-- C5: an unopenable source yields an empty Document silently (every
scalar field the empty string, both sequences empty), indistinguishable
from parsing a valid but empty file. -/
theorem claim_C5_source_unavailable :
    parse_modelfile none = ModelFile.empty ∧
    (parse_modelfile none).«from» = "" ∧
    (parse_modelfile none).parameters = [] ∧
    (parse_modelfile none).template_str = "" ∧
    (parse_modelfile none).system = "" ∧
    (parse_modelfile none).adapter = "" ∧
    (parse_modelfile none).license = "" ∧
    (parse_modelfile none).messages = [] ∧
    parse_modelfile none = parse_modelfile (some []) := by
  decide

/-- C6: when a SYSTEM or LICENSE directive opens triple-quote continuation
but no later line contains a closing marker, parsing stops at end of input
with whatever was accumulated, raising no error and still returning a
Document. -/
theorem claim_C6_unterminated_continuation (r v : String)
    (rest : List String) (m : ModelFile)
    (hrest : ∀ l ∈ rest, containsMarker l = false)
    (hv : containsMarker v = true) :
    (rstrip r = "SYSTEM " ++ v →
      parse_lines (r :: rest) m =
        { m with system := v ++ "\n" ++
            stripTrailingNewline (String.join rest) }) ∧
    (rstrip r = "LICENSE " ++ v →
      parse_lines (r :: rest) m =
        { m with license := v ++ "\n" ++
            stripTrailingNewline (String.join rest) }) := by
  have hrm : read_multiline rest =
      (stripTrailingNewline (String.join rest), []) := by
    unfold read_multiline
    rw [read_multiline_loop_no_marker rest hrest]
  constructor
  · intro hr
    have hdata : ("SYSTEM " ++ v).data = 'S' :: ("YSTEM ".data ++ v.data) := by
      rw [String.data_append]; rfl
    rw [parse_lines_cons, hr, if_neg (by simp [hdata])]
    rw [parse_line_system, if_pos hv, hrm]
    rfl
  · intro hr
    have hdata : ("LICENSE " ++ v).data = 'L' :: ("ICENSE ".data ++ v.data) := by
      rw [String.data_append]; rfl
    rw [parse_lines_cons, hr, if_neg (by simp [hdata])]
    rw [parse_line_license, if_pos hv, hrm]
    rfl

/-- C6 witness: an unterminated SYSTEM (resp. LICENSE) block accumulates
the rest of the source and still returns a Document. -/
theorem claim_C6_unterminated_continuation_witness :
    parse_lines ["SYSTEM \"\"\"a\n", "no close\n"] ModelFile.empty =
      { ModelFile.empty with system := "\"\"\"a\nno close" } ∧
    parse_lines ["LICENSE \"\"\"b\n", "still open\n"] ModelFile.empty =
      { ModelFile.empty with license := "\"\"\"b\nstill open" } := by
  constructor
  · have h := (claim_C6_unterminated_continuation "SYSTEM \"\"\"a\n" "\"\"\"a"
      ["no close\n"] ModelFile.empty (by decide) (by decide)).1 (by decide)
    exact h.trans (by decide)
  · have h := (claim_C6_unterminated_continuation "LICENSE \"\"\"b\n" "\"\"\"b"
      ["still open\n"] ModelFile.empty (by decide) (by decide)).2 (by decide)
    exact h.trans (by decide)

/-- C7: each scalar field is the empty string and each sequence empty when
its directive never appears among the (trimmed) input lines, and comment
lines starting with `#` as well as blank lines contribute nothing. -/
theorem claim_C7_defaults_and_skips (file : List String) :
    ((∀ l ∈ file, starts_with (rstrip l) "FROM " = false) →
      (parse_lines file ModelFile.empty).«from» = "") ∧
    ((∀ l ∈ file, starts_with (rstrip l) "PARAMETER " = false) →
      (parse_lines file ModelFile.empty).parameters = []) ∧
    ((∀ l ∈ file, starts_with (rstrip l) "TEMPLATE " = false) →
      (parse_lines file ModelFile.empty).template_str = "") ∧
    ((∀ l ∈ file, starts_with (rstrip l) "SYSTEM " = false) →
      (parse_lines file ModelFile.empty).system = "") ∧
    ((∀ l ∈ file, starts_with (rstrip l) "ADAPTER " = false) →
      (parse_lines file ModelFile.empty).adapter = "") ∧
    ((∀ l ∈ file, starts_with (rstrip l) "LICENSE " = false) →
      (parse_lines file ModelFile.empty).license = "") ∧
    ((∀ l ∈ file, starts_with (rstrip l) "MESSAGE " = false) →
      (parse_lines file ModelFile.empty).messages = []) ∧
    (∀ (raw : String) (rest : List String) (m : ModelFile),
      (rstrip raw).data = [] ∨ (rstrip raw).data.head? = some '#' →
      parse_lines (raw :: rest) m = parse_lines rest m) := by
  refine ⟨?_, ?_, ?_, ?_, ?_, ?_, ?_, ?_⟩
  · exact fun h => parse_loop_preserves_gen (fun mm => mm.«from») "FROM "
      (fun line m f hh => (parse_line_preserves line m f).1 hh)
      file.length file ModelFile.empty h
  · exact fun h => parse_loop_preserves_gen (fun mm => mm.parameters)
      "PARAMETER "
      (fun line m f hh => (parse_line_preserves line m f).2.1 hh)
      file.length file ModelFile.empty h
  · exact fun h => parse_loop_preserves_gen (fun mm => mm.template_str)
      "TEMPLATE "
      (fun line m f hh => (parse_line_preserves line m f).2.2.1 hh)
      file.length file ModelFile.empty h
  · exact fun h => parse_loop_preserves_gen (fun mm => mm.system) "SYSTEM "
      (fun line m f hh => (parse_line_preserves line m f).2.2.2.1 hh)
      file.length file ModelFile.empty h
  · exact fun h => parse_loop_preserves_gen (fun mm => mm.adapter) "ADAPTER "
      (fun line m f hh => (parse_line_preserves line m f).2.2.2.2.1 hh)
      file.length file ModelFile.empty h
  · exact fun h => parse_loop_preserves_gen (fun mm => mm.license) "LICENSE "
      (fun line m f hh => (parse_line_preserves line m f).2.2.2.2.2.1 hh)
      file.length file ModelFile.empty h
  · exact fun h => parse_loop_preserves_gen (fun mm => mm.messages)
      "MESSAGE "
      (fun line m f hh => (parse_line_preserves line m f).2.2.2.2.2.2 hh)
      file.length file ModelFile.empty h
  · intro raw rest m h
    rw [parse_lines_cons, if_pos h]

/-- C7 witness: a comment line and a blank line leave every field at its
default, and skipping a comment line is the identity on the rest. -/
theorem claim_C7_defaults_and_skips_witness :
    (parse_lines ["# this is ignored\n", "\n"] ModelFile.empty).«from» = "" ∧
    (parse_lines ["# this is ignored\n", "\n"] ModelFile.empty).parameters = [] ∧
    (parse_lines ["# this is ignored\n", "\n"] ModelFile.empty).template_str = "" ∧
    (parse_lines ["# this is ignored\n", "\n"] ModelFile.empty).system = "" ∧
    (parse_lines ["# this is ignored\n", "\n"] ModelFile.empty).adapter = "" ∧
    (parse_lines ["# this is ignored\n", "\n"] ModelFile.empty).license = "" ∧
    (parse_lines ["# this is ignored\n", "\n"] ModelFile.empty).messages = [] ∧
    parse_lines ["# this is ignored\n", "FROM x\n"] ModelFile.empty =
      parse_lines ["FROM x\n"] ModelFile.empty := by
  have h := claim_C7_defaults_and_skips ["# this is ignored\n", "\n"]
  exact ⟨h.1 (by decide), h.2.1 (by decide), h.2.2.1 (by decide),
    h.2.2.2.1 (by decide), h.2.2.2.2.1 (by decide), h.2.2.2.2.2.1 (by decide),
    h.2.2.2.2.2.2.1 (by decide),
    (claim_C7_defaults_and_skips []).2.2.2.2.2.2.2
      "# this is ignored\n" ["FROM x\n"] ModelFile.empty (by decide)⟩

/-- C8: parsing is deterministic: two runs of `parse_modelfile` over the
same source yield field-for-field identical Documents; the embedding
carries no state between calls. -/
theorem claim_C8_deterministic (source : Option (List String))
    (d1 d2 : ModelFile)
    (h1 : d1 = parse_modelfile source) (h2 : d2 = parse_modelfile source) :
    d1.«from» = d2.«from» ∧ d1.parameters = d2.parameters ∧
    d1.template_str = d2.template_str ∧ d1.system = d2.system ∧
    d1.adapter = d2.adapter ∧ d1.license = d2.license ∧
    d1.messages = d2.messages ∧ d1 = d2 := by
  subst h1; subst h2
  exact ⟨rfl, rfl, rfl, rfl, rfl, rfl, rfl, rfl⟩

/-- C8 witness: two runs on a concrete source agree on every field. -/
theorem claim_C8_deterministic_witness :
    (parse_modelfile (some ["FROM x\n"])).«from» =
      (parse_modelfile (some ["FROM x\n"])).«from» ∧
    (parse_modelfile (some ["FROM x\n"])).parameters =
      (parse_modelfile (some ["FROM x\n"])).parameters ∧
    (parse_modelfile (some ["FROM x\n"])).template_str =
      (parse_modelfile (some ["FROM x\n"])).template_str ∧
    (parse_modelfile (some ["FROM x\n"])).system =
      (parse_modelfile (some ["FROM x\n"])).system ∧
    (parse_modelfile (some ["FROM x\n"])).adapter =
      (parse_modelfile (some ["FROM x\n"])).adapter ∧
    (parse_modelfile (some ["FROM x\n"])).license =
      (parse_modelfile (some ["FROM x\n"])).license ∧
    (parse_modelfile (some ["FROM x\n"])).messages =
      (parse_modelfile (some ["FROM x\n"])).messages ∧
    parse_modelfile (some ["FROM x\n"]) = parse_modelfile (some ["FROM x\n"]) :=
  claim_C8_deterministic (some ["FROM x\n"]) _ _ rfl rfl

/-- C9: every pair `parse_modelfile` puts into `parameters` or `messages`
has a non-empty value that does not end in a space, tab, carriage return
or newline: lines are right-trimmed before classification, so the found
space is never the line's last character. -/
theorem claim_C9_values_trimmed (source : Option (List String))
    (kv : String × String)
    (hkv : kv ∈ (parse_modelfile source).parameters ∨
      kv ∈ (parse_modelfile source).messages) :
    kv.2 ≠ "" ∧ endsInWs kv.2 = false := by
  match source with
  | none =>
    exact absurd hkv (by simp [parse_modelfile, ModelFile.empty])
  | some lines =>
    exact parse_loop_values lines.length lines ModelFile.empty
      (fun kv' h => absurd h (by simp [ModelFile.empty])) kv hkv

/-- C9 witness: the pair produced by `PARAMETER temperature 0.7` has the
non-empty, right-trimmed value "0.7". -/
theorem claim_C9_values_trimmed_witness :
    (("temperature", "0.7") ∈
        (parse_modelfile (some ["PARAMETER temperature 0.7\n"])).parameters ∨
      ("temperature", "0.7") ∈
        (parse_modelfile (some ["PARAMETER temperature 0.7\n"])).messages) ∧
    ("0.7" ≠ "" ∧ endsInWs "0.7" = false) :=
  ⟨by decide,
    claim_C9_values_trimmed (some ["PARAMETER temperature 0.7\n"])
      ("temperature", "0.7") (by decide)⟩

/-- C10: `MESSAGE  hello` (two spaces) appends the pair ("", "hello") to
`messages` because the first-space search from offset 8 finds the
separator at offset 8 itself; analogously `PARAMETER  0.7` appends a pair
with an empty key. -/
theorem claim_C10_empty_key :
    parse_lines ["MESSAGE  hello\n"] ModelFile.empty =
      { ModelFile.empty with messages := [("", "hello")] } ∧
    parse_lines ["PARAMETER  0.7\n"] ModelFile.empty =
      { ModelFile.empty with parameters := [("", "0.7")] } ∧
    findCharFrom (rstrip "MESSAGE  hello\n") ' ' 8 = some 8 ∧
    findCharFrom (rstrip "PARAMETER  0.7\n") ' ' 10 = some 10 := by
  decide

end Modelfile
